import Mathlib

/-!
Shallow embedding of the schedule/realtime reconciliation pipeline of
src/main.py (cff-discord-bot): stop-id normalization, static schedule
filtering, realtime feed parsing, the realtime/static join, delay-threshold
alerting, and the surrounding error behaviour.

Strings are modelled as lists of characters (Python str).  Times of day are
modelled as seconds since midnight (Int); a failed datetime parse
(pandas errors="coerce") is `none`.
-/

/-- Character-list model of Python strings. -/
abbrev Str := List Char

/-- Python s.split(":"): the list of colon-separated groups of s (never empty). -/
def splitCols : Str → List Str
  | [] => [[]]
  | c :: rest =>
    if c = ':' then [] :: splitCols rest
    else
      match splitCols rest with
      | [] => [[c]]
      | g :: gs => (c :: g) :: gs

/-- Embeds normalize_stop_id (src/main.py line 83-85):
stop_id.split(":")[0] if ":" in stop_id else stop_id. -/
def normalize_stop_id (s : Str) : Str :=
  if ':' ∈ s then (splitCols s).headD [] else s

/-- Embeds the realtime trip-id transform (src/main.py line 128):
trip_id.split(":")[-1], the group after the last colon. -/
def lastColonToken (s : Str) : Str :=
  (splitCols s).getLastD []

/-- Row of routes.txt restricted to the columns the code reads (src/main.py line 76). -/
structure RouteRow where
  route_id : Str
  route_short_name : Str
deriving DecidableEq

/-- Row of trips.txt restricted to the columns the code reads (src/main.py line 77). -/
structure TripRow where
  trip_id : Str
  route_id : Str
deriving DecidableEq

/-- Row of stops.txt restricted to the columns the code reads (src/main.py line 89). -/
structure StopRow where
  stop_id : Str
  stop_name : Str
deriving DecidableEq

/-- Row of stop_times.txt restricted to the columns the code reads (src/main.py line 93-97). -/
structure StopTimeRow where
  trip_id : Str
  stop_id : Str
  arrival_time : Str
  departure_time : Str
deriving DecidableEq

/-- Embeds get_line_trip_ids (src/main.py line 74-81): route ids whose short name
matches the line, then the trip ids of trips on those routes. -/
def get_line_trip_ids (routes : List RouteRow) (trips : List TripRow) (line_name : Str) :
    List Str :=
  let line_route_ids :=
    (routes.filter (fun r => decide (r.route_short_name = line_name))).map RouteRow.route_id
  (trips.filter (fun t => decide (t.route_id ∈ line_route_ids))).map TripRow.trip_id

/-- Embeds src/main.py line 90: stops_df["stop_id"].apply(normalize_stop_id). -/
def stops_norm (stops : List StopRow) : List StopRow :=
  stops.map (fun r => { stop_id := normalize_stop_id r.stop_id, stop_name := r.stop_name })

/-- Embeds src/main.py line 91: keep stop rows whose stop_name is a configured stop. -/
def stops_filtered (stops : List StopRow) (line_stops : List Str) : List StopRow :=
  (stops_norm stops).filter (fun r => decide (r.stop_name ∈ line_stops))

/-- Embeds src/main.py line 98: stop_times_df["stop_id"].apply(normalize_stop_id). -/
def st_norm (st : List StopTimeRow) : List StopTimeRow :=
  st.map (fun r => { r with stop_id := normalize_stop_id r.stop_id })

/-- Embeds src/main.py line 99-101: keep stop_times rows of member trips at configured stops. -/
def st_filtered (stops : List StopRow) (st : List StopTimeRow) (line_trip_ids : List Str)
    (line_stops : List Str) : List StopTimeRow :=
  (st_norm st).filter (fun r =>
    decide (r.trip_id ∈ line_trip_ids) &&
      decide (r.stop_id ∈ (stops_filtered stops line_stops).map StopRow.stop_id))

/-- Rows of one trip, in table row order (the order pandas groupby aggregates in). -/
def tripRowsOf (l : List StopTimeRow) (tid : Str) : List StopTimeRow :=
  l.filter (fun r => decide (r.trip_id = tid))

/-- Embeds src/main.py line 103-108: a trip is invalid when the first and last of its
rows (in table row order) name the same stop. -/
def invalid_trip (l : List StopTimeRow) (tid : Str) : Bool :=
  match tripRowsOf l tid with
  | [] => false
  | x :: xs => decide (x.stop_id = (xs.getLastD x).stop_id)

/-- Embeds filter_stops_and_times (src/main.py line 87-112). -/
def filter_stops_and_times (stops : List StopRow) (st : List StopTimeRow)
    (line_trip_ids : List Str) (line_stops : List Str) : List StopRow × List StopTimeRow :=
  (stops_filtered stops line_stops,
   (st_filtered stops st line_trip_ids line_stops).filter
     (fun r => ! invalid_trip (st_filtered stops st line_trip_ids line_stops) r.trip_id))

/-- Stop-level update of the GTFS-RT wire format (stop_id, arrival.delay?, departure.delay?). -/
structure StopTimeUpdate where
  stop_id : Str
  arrival : Option Int
  departure : Option Int
deriving DecidableEq

/-- Trip descriptor of the GTFS-RT wire format. -/
structure TripDescriptor where
  trip_id : Str
deriving DecidableEq

/-- Trip-level update of the GTFS-RT wire format. -/
structure TripUpdate where
  trip : TripDescriptor
  stop_time_update : List StopTimeUpdate
deriving DecidableEq

/-- Feed entity; trip_update is optional (entities without one contribute nothing). -/
structure FeedEntity where
  trip_update : Option TripUpdate
deriving DecidableEq

/-- Decoded GTFS-RT feed message. -/
structure FeedMessage where
  entity : List FeedEntity
deriving DecidableEq

/-- Error raised by the protobuf decoder on a malformed payload. -/
structure DecodeError where
  msg : Str
deriving DecidableEq

/-- Per-trip per-stop delay record built by the parsing loop (src/main.py line 134-139). -/
structure RealtimeDelay where
  trip_id : Str
  stop_id : Str
  arrival_delay : Int
  departure_delay : Int
deriving DecidableEq

/-- One record per stop_time_update (src/main.py line 130-139): normalized stop id,
missing arrival/departure delays default to 0. -/
def recordOfUpdate (tid : Str) (stu : StopTimeUpdate) : RealtimeDelay :=
  { trip_id := tid
    stop_id := normalize_stop_id stu.stop_id
    arrival_delay := stu.arrival.getD 0
    departure_delay := stu.departure.getD 0 }

/-- Embeds the parsing loop (src/main.py line 125-139): for every entity carrying a
trip_update, one record per stop_time_update; the trip id keeps only the part after
the last colon (line 128). -/
def parse_trip_updates (feed : FeedMessage) : List RealtimeDelay :=
  feed.entity.flatMap (fun e =>
    match e.trip_update with
    | none => []
    | some tu => tu.stop_time_update.map (recordOfUpdate (lastColonToken tu.trip.trip_id)))

/-- Row of merged_df after the two left merges (src/main.py line 151-152); columns
brought in by a failed match are none (pandas NaN). -/
structure MergedRow where
  trip_id : Str
  stop_id : Str
  arrival_delay : Int
  departure_delay : Int
  stop_name : Option Str
  arrival_time : Option Str
  departure_time : Option Str
deriving DecidableEq

/-- Embeds realtime_df.merge(stops_df, on="stop_id", how="left") (src/main.py line 151):
every realtime record is kept; each matching stops row multiplies it, no match gives NaN. -/
def merge_stops (rt : List RealtimeDelay) (stops : List StopRow) :
    List (RealtimeDelay × Option Str) :=
  rt.flatMap (fun r =>
    match stops.filter (fun s => decide (s.stop_id = r.stop_id)) with
    | [] => [(r, none)]
    | s :: ss => (s :: ss).map (fun s2 => (r, some s2.stop_name)))

/-- Join predicate of the second merge (src/main.py line 152): on=["trip_id", "stop_id"]. -/
def joinMatch (r : RealtimeDelay) (x : StopTimeRow) : Bool :=
  decide (x.trip_id = r.trip_id) && decide (x.stop_id = r.stop_id)

/-- Embeds .merge(stop_times_df, on=["trip_id", "stop_id"], how="left")
(src/main.py line 152). -/
def merge_stop_times (rows : List (RealtimeDelay × Option Str)) (st : List StopTimeRow) :
    List MergedRow :=
  rows.flatMap (fun p =>
    match st.filter (joinMatch p.1) with
    | [] => [{ trip_id := p.1.trip_id, stop_id := p.1.stop_id,
               arrival_delay := p.1.arrival_delay, departure_delay := p.1.departure_delay,
               stop_name := p.2, arrival_time := none, departure_time := none }]
    | x :: xs => (x :: xs).map (fun x2 =>
        { trip_id := p.1.trip_id, stop_id := p.1.stop_id,
          arrival_delay := p.1.arrival_delay, departure_delay := p.1.departure_delay,
          stop_name := p.2, arrival_time := some x2.arrival_time,
          departure_time := some x2.departure_time }))

/-- Value of one decimal digit character. -/
def parseDigit (c : Char) : Option Nat :=
  if c.isDigit then some (c.toNat - 48) else none

/-- One strptime field of one or two digits, bounded by hi. -/
def parseField (hi : Nat) : Str → Option Nat
  | [c] => (parseDigit c).bind (fun d => if d ≤ hi then some d else none)
  | [c1, c2] =>
    (parseDigit c1).bind (fun d1 =>
      (parseDigit c2).bind (fun d2 =>
        if 10 * d1 + d2 ≤ hi then some (10 * d1 + d2) else none))
  | _ => none

/-- Embeds pd.to_datetime(... + " " + t, format="%Y-%m-%d %H:%M:%S", errors="coerce")
(src/main.py line 155-164) as seconds since midnight; a value the format rejects
(for example hours over 23) becomes none (NaT). -/
def parseTime (s : Str) : Option Int :=
  match splitCols s with
  | [h, m, sec] =>
    (parseField 23 h).bind (fun hv =>
      (parseField 59 m).bind (fun mv =>
        (parseField 59 sec).map (fun sv => ((3600 * hv + 60 * mv + sv : Nat) : Int))))
  | _ => none

/-- Merged row after time parsing and the real_arrival_time / real_departure_time
columns (src/main.py line 154-167). -/
structure ReconRow where
  trip_id : Str
  stop_id : Str
  arrival_delay : Int
  departure_delay : Int
  stop_name : Option Str
  arrival_time : Option Int
  departure_time : Option Int
  real_arrival_time : Option Int
  real_departure_time : Option Int
deriving DecidableEq

/-- Embeds src/main.py line 154-167: parse the scheduled times, then
real time = scheduled time + delay (NaT propagates to NaT). -/
def withRealTimes (row : MergedRow) : ReconRow :=
  { trip_id := row.trip_id
    stop_id := row.stop_id
    arrival_delay := row.arrival_delay
    departure_delay := row.departure_delay
    stop_name := row.stop_name
    arrival_time := row.arrival_time.bind parseTime
    departure_time := row.departure_time.bind parseTime
    real_arrival_time := (row.arrival_time.bind parseTime).map (fun t => t + row.arrival_delay)
    real_departure_time :=
      (row.departure_time.bind parseTime).map (fun t => t + row.departure_delay) }

/-- The realtime/static join output (src/main.py line 151-167), before the stop-name filter. -/
def reconciled (rt : List RealtimeDelay) (stops : List StopRow) (st : List StopTimeRow) :
    List ReconRow :=
  (merge_stop_times (merge_stops rt stops) st).map withRealTimes

/-- Embeds merged_df["stop_name"].isin(LINE_STOPS): NaN is never in the list. -/
def nameIn (n : Option Str) (ls : List Str) : Bool :=
  match n with
  | some name => decide (name ∈ ls)
  | none => false

/-- merged_df after the stop-name filter (src/main.py line 169). -/
def merged_view (rt : List RealtimeDelay) (stops : List StopRow) (st : List StopTimeRow)
    (ls : List Str) : List ReconRow :=
  (reconciled rt stops st).filter (fun r => nameIn r.stop_name ls)

/-- Embeds src/main.py line 171: trip ids having some row with arrival_delay >= 120. -/
def delayed_trip_ids (m : List ReconRow) : List Str :=
  (m.filter (fun r => decide (120 ≤ r.arrival_delay))).map ReconRow.trip_id

/-- Embeds src/main.py line 178: rows of the qualifying trips. -/
def delayed_view (m : List ReconRow) : List ReconRow :=
  m.filter (fun r => decide (r.trip_id ∈ delayed_trip_ids m))

/-- Strict lexicographic order on character lists (pandas string column order). -/
def strLt : Str → Str → Bool
  | [], [] => false
  | [], _ :: _ => true
  | _ :: _, [] => false
  | a :: as, b :: bs => if a = b then strLt as bs else decide (a < b)

/-- Order on optional times with none (NaT) last, as pandas sorts NaT. -/
def optIntLe : Option Int → Option Int → Bool
  | none, none => true
  | none, some _ => false
  | some _, none => true
  | some a, some b => decide (a ≤ b)

/-- Sort key of src/main.py line 179: by trip_id, then by real_arrival_time. -/
def rowLe (a b : ReconRow) : Bool :=
  strLt a.trip_id b.trip_id ||
    (decide (a.trip_id = b.trip_id) && optIntLe a.real_arrival_time b.real_arrival_time)

/-- Propositional form of rowLe, for List.insertionSort. -/
def RowLeP (a b : ReconRow) : Prop := rowLe a b = true

instance : DecidableRel RowLeP :=
  fun a b => inferInstanceAs (Decidable (rowLe a b = true))

/-- Embeds sort_values(by=["trip_id", "real_arrival_time"]) (src/main.py line 179). -/
def sortRows (l : List ReconRow) : List ReconRow := List.insertionSort RowLeP l

/-- Deduplication key of src/main.py line 179-181: subset=["trip_id", "stop_id"]. -/
def rowKey (r : ReconRow) : Str × Str := (r.trip_id, r.stop_id)

/-- Embeds drop_duplicates(subset=["trip_id", "stop_id"], keep="first"). -/
def dedupRowsAux : List (Str × Str) → List ReconRow → List ReconRow
  | _, [] => []
  | seen, x :: xs =>
    if rowKey x ∈ seen then dedupRowsAux seen xs
    else x :: dedupRowsAux (rowKey x :: seen) xs

/-- drop_duplicates over the whole frame, keeping the first occurrence of each key. -/
def dedupRows (l : List ReconRow) : List ReconRow := dedupRowsAux [] l

/-- delayed_df after sort and dedup (src/main.py line 178-181). -/
def alert_rows (m : List ReconRow) : List ReconRow := dedupRows (sortRows (delayed_view m))

/-- First occurrence of each value, in order (groupby group keys in frame order;
after the trip_id-major sort this is also ascending trip_id order). -/
def distinctAux : List Str → List Str → List Str
  | _, [] => []
  | seen, x :: xs => if x ∈ seen then distinctAux seen xs else x :: distinctAux (x :: seen) xs

/-- Trip ids of the groupby("trip_id") over the deduplicated frame (src/main.py line 186). -/
def trip_order (l : List ReconRow) : List Str := distinctAux [] (l.map ReconRow.trip_id)

/-- Rows of one groupby group, in frame order. -/
def tripGroup (l : List ReconRow) (tid : Str) : List ReconRow :=
  l.filter (fun r => decide (r.trip_id = tid))

/-- One rendered line of the alert message (src/main.py line 190-192): stop name,
effective arrival, delay in whole minutes (Python floor division by 60). -/
structure AlertLine where
  stop_name : Option Str
  real_arrival_time : Option Int
  delay_min : Int
deriving DecidableEq

/-- One alert grouping per delayed trip (src/main.py line 186-192). -/
structure TripAlert where
  trip_id : Str
  start_name : Option Str
  end_name : Option Str
  stops : List AlertLine
deriving DecidableEq

/-- Embeds the per-trip message block (src/main.py line 186-192): start and end are
the first and last row of the group, each row giving arrival and delay // 60. -/
def mkAlert (tid : Str) (rows : List ReconRow) : TripAlert :=
  { trip_id := tid
    start_name := rows.head?.bind ReconRow.stop_name
    end_name := rows.getLast?.bind ReconRow.stop_name
    stops := rows.map (fun r =>
      { stop_name := r.stop_name, real_arrival_time := r.real_arrival_time,
        delay_min := Int.fdiv r.arrival_delay 60 }) }

/-- The alert groupings emitted for all qualifying trips. -/
def build_alerts (m : List ReconRow) : List TripAlert :=
  (trip_order (alert_rows m)).map (fun t => mkAlert t (tripGroup (alert_rows m) t))

/-- Observable outcome of one fetch_realtime_data run: its three early returns, the
notification branch, and the branch where the except-handler caught an exception. -/
inductive RunOutcome where
  | noActive
  | noDelays
  | alertsSent (alerts : List TripAlert)
  | errorReported
deriving DecidableEq

/-- Body of the try-block of fetch_realtime_data (src/main.py line 118-195), after a
successful decode. -/
def fetch_realtime_body (feed : FeedMessage) (stops : List StopRow) (st : List StopTimeRow)
    (line_stops : List Str) : RunOutcome :=
  let rt := parse_trip_updates feed
  if rt.isEmpty then RunOutcome.noActive
  else
    let m := merged_view rt stops st line_stops
    if (delayed_trip_ids m).isEmpty then RunOutcome.noDelays
    else RunOutcome.alertsSent (build_alerts m)

/-- Embeds fetch_realtime_data (src/main.py line 114-199).  The protobuf decode is an
external library call, so the function takes the decode result; the except-handler
(line 197-199) turns any raised error into a printed/notified message and a normal
return, which the errorReported outcome represents. -/
def fetch_realtime_data (decoded : Except DecodeError FeedMessage) (stops : List StopRow)
    (st : List StopTimeRow) (line_stops : List Str) : RunOutcome :=
  match decoded with
  | Except.error _ => RunOutcome.errorReported
  | Except.ok feed => fetch_realtime_body feed stops st line_stops

/-- Key comparing stop_times rows by scheduled arrival time (schedule order). -/
def timeKeyLe (a b : StopTimeRow) : Bool :=
  optIntLe (parseTime a.arrival_time) (parseTime b.arrival_time)

/-- Propositional form of timeKeyLe, for List.insertionSort. -/
def TimeKeyLeP (a b : StopTimeRow) : Prop := timeKeyLe a b = true

instance : DecidableRel TimeKeyLeP :=
  fun a b => inferInstanceAs (Decidable (timeKeyLe a b = true))

/-- Rows of a trip re-ordered by scheduled arrival time (schedule order, stable). -/
def schedSort (rows : List StopTimeRow) : List StopTimeRow := List.insertionSort TimeKeyLeP rows

/-- Concrete trip id used by the worked examples. -/
def tripT : Str := "T".data

/-- Concrete trip id used by the worked examples. -/
def tripT1 : Str := "T1".data

/-- Concrete stop id A. -/
def stopA : Str := "A".data

/-- Concrete stop id B. -/
def stopB : Str := "B".data

/-- Concrete stop id C. -/
def stopC : Str := "C".data

/-- Concrete stop id S. -/
def stopS : Str := "S".data

/-- Concrete stop name of stop A. -/
def nameA : Str := "a".data

/-- Concrete stop name of stop B. -/
def nameB : Str := "b".data

/-- Concrete stop name of stop C. -/
def nameC : Str := "c".data

/-- Concrete stop name of stop S. -/
def nameS : Str := "s".data

/-- Time-of-day string 08:00:00. -/
def t0800 : Str := "08:00:00".data

/-- Time-of-day string 08:05:00. -/
def t0805 : Str := "08:05:00".data

/-- Time-of-day string 08:10:00. -/
def t0810 : Str := "08:10:00".data

/-- Stops table of the round-trip scenario, already filtered and normalized. -/
def c1stops : List StopRow := [⟨stopA, nameA⟩, ⟨stopB, nameB⟩, ⟨stopC, nameC⟩]

/-- Stop-times of one trip A at 08:00, B at 08:05, C at 08:10. -/
def c1st : List StopTimeRow :=
  [⟨tripT, stopA, t0800, t0800⟩, ⟨tripT, stopB, t0805, t0805⟩, ⟨tripT, stopC, t0810, t0810⟩]

/-- Feed of the round-trip scenario: one trip update for trip T with a single
stop_time_update at stop B carrying arrival delay +300s. -/
def c1feed : FeedMessage := ⟨[⟨some ⟨⟨tripT⟩, [⟨stopB, some 300, none⟩]⟩⟩]⟩

/-- Delay records parsed from the round-trip scenario feed. -/
def c1rt : List RealtimeDelay := parse_trip_updates c1feed

/-- The single join-output row of the round-trip scenario (stop B, 08:05 + 300s = 08:10). -/
def c1rowB : ReconRow :=
  { trip_id := tripT, stop_id := stopB, arrival_delay := 300, departure_delay := 0,
    stop_name := some nameB, arrival_time := some 29100, departure_time := some 29100,
    real_arrival_time := some 29400, real_departure_time := some 29100 }

/-- Configured stop names a, b and c. -/
def lineStopsABC : List Str := [nameA, nameB, nameC]

/-- Stop-times of a trip visiting only A and B, a strict subset of the configured stops. -/
def c2st : List StopTimeRow :=
  [⟨tripT1, stopA, t0800, t0800⟩, ⟨tripT1, stopB, t0805, t0805⟩]

/-- Stops table for the degenerate-trip example. -/
def c6stops : List StopRow := [⟨stopS, nameS⟩, ⟨stopB, nameB⟩]

/-- Configured stop names of the degenerate-trip example. -/
def c6ls : List Str := [nameS, nameB]

/-- Stop-times whose table row order differs from schedule order: rows S@08:00,
S@08:10, B@08:05; first and last row differ, but both schedule-order endpoints are S. -/
def c6st : List StopTimeRow :=
  [⟨tripT, stopS, t0800, t0800⟩, ⟨tripT, stopS, t0810, t0810⟩, ⟨tripT, stopB, t0805, t0805⟩]

/-- Stops table of the alerting example. -/
def c7stops : List StopRow := [⟨stopA, nameA⟩, ⟨stopB, nameB⟩]

/-- Configured stop names of the alerting example. -/
def c7ls : List Str := [nameA, nameB]

/-- Stop-times of the alerting example. -/
def c7st : List StopTimeRow :=
  [⟨tripT, stopA, t0800, t0800⟩, ⟨tripT, stopB, t0805, t0805⟩]

/-- Feed of the alerting example: delays of 60s at A and 300s at B for trip T. -/
def c7feed : FeedMessage :=
  ⟨[⟨some ⟨⟨tripT⟩, [⟨stopA, some 60, none⟩, ⟨stopB, some 300, none⟩]⟩⟩]⟩

/-- The alert grouping the alerting example emits. -/
def c7alert : TripAlert :=
  { trip_id := tripT, start_name := some nameA, end_name := some nameB,
    stops := [⟨some nameA, some 28860, 1⟩, ⟨some nameB, some 29400, 5⟩] }

/-- The alert list the alerting example emits. -/
def c7as : List TripAlert := [c7alert]

/-- Concrete route id. -/
def routeR1 : Str := "R1".data

/-- Line name present in the routes table. -/
def lineX : Str := "X".data

/-- Line name absent from the routes table. -/
def lineY : Str := "Y".data

/-- Routes table with one route on line X. -/
def c8routes : List RouteRow := [⟨routeR1, lineX⟩]

/-- Trips table with one trip on that route. -/
def c8trips : List TripRow := [⟨tripT1, routeR1⟩]

/-- Raw stop id carrying a platform suffix. -/
def stopColon : Str := "8501000:1".data

/-- Prefix of a realtime trip id that itself contains a colon. -/
def rtPrefix : Str := "91:x".data

/-- Message of the demo decode failure. -/
def badPayloadMsg : Str := "truncated".data

/-- First kept row of the partial-coverage example. -/
def c2row0 : StopTimeRow := ⟨tripT1, stopA, t0800, t0800⟩

/-- First row (row order) of the out-of-schedule-order example. -/
def c6row0 : StopTimeRow := ⟨tripT, stopS, t0800, t0800⟩

/-- Second row (row order) of the out-of-schedule-order example. -/
def c6row1 : StopTimeRow := ⟨tripT, stopS, t0810, t0810⟩

/-- Third row (row order) of the out-of-schedule-order example. -/
def c6row2 : StopTimeRow := ⟨tripT, stopB, t0805, t0805⟩

/-- The groupby group of one trip in the deduplicated alert frame. -/
def alert_group_of (feed : FeedMessage) (stops : List StopRow) (st : List StopTimeRow)
    (ls : List Str) (tid : Str) : List ReconRow :=
  tripGroup (alert_rows (merged_view (parse_trip_updates feed) stops st ls)) tid

theorem splitCols_ne_nil (s : Str) : splitCols s ≠ [] := by
  induction s with
  | nil => simp [splitCols]
  | cons c rest ih =>
    simp only [splitCols]
    by_cases hc : c = ':'
    · simp [hc]
    · simp only [hc, if_false]
      cases h : splitCols rest with
      | nil => simp
      | cons g gs => simp

theorem splitCols_of_no_colon (s : Str) (h : ':' ∉ s) : splitCols s = [s] := by
  induction s with
  | nil => simp [splitCols]
  | cons c rest ih =>
    have hc : ¬ c = ':' := fun hcc => h (hcc ▸ List.mem_cons_self c rest)
    have hr : ':' ∉ rest := fun hm => h (List.mem_cons_of_mem c hm)
    simp only [splitCols, hc, if_false, ih hr]

theorem splitCols_elem_no_colon (s : Str) : ∀ g ∈ splitCols s, ':' ∉ g := by
  induction s with
  | nil => intro g hg; simp [splitCols] at hg; simp [hg]
  | cons c rest ih =>
    intro g hg
    simp only [splitCols] at hg
    by_cases hc : c = ':'
    · simp only [hc, if_true] at hg
      rcases List.mem_cons.mp hg with h | h
      · simp [h]
      · exact ih g h
    · simp only [hc, if_false] at hg
      cases h : splitCols rest with
      | nil => exact absurd h (splitCols_ne_nil rest)
      | cons g0 gs =>
        rw [h] at hg
        rcases List.mem_cons.mp hg with hgg | hgg
        · subst hgg
          intro hmem
          rcases List.mem_cons.mp hmem with hh | hh
          · exact hc hh.symm
          · exact ih g0 (h ▸ List.mem_cons_self g0 gs) hh
        · exact ih g (h ▸ List.mem_cons_of_mem g0 hgg)

theorem splitCols_two_of_colon (s : Str) (h : ':' ∈ s) :
    ∃ g gs, splitCols s = g :: gs ∧ gs ≠ [] := by
  induction s with
  | nil => simp at h
  | cons c rest ih =>
    by_cases hc : c = ':'
    · refine ⟨[], splitCols rest, ?_, splitCols_ne_nil rest⟩
      simp [splitCols, hc]
    · have hr : ':' ∈ rest := by
        rcases List.mem_cons.mp h with hh | hh
        · exact absurd hh.symm hc
        · exact hh
      rcases ih hr with ⟨g, gs, hsp, hgs⟩
      refine ⟨c :: g, gs, ?_, hgs⟩
      simp [splitCols, hc, hsp]

theorem splitCols_cons_of_ne (c : Char) (s : Str) (hc : ¬ c = ':') (g : Str) (gs : List Str)
    (h : splitCols s = g :: gs) : splitCols (c :: s) = (c :: g) :: gs := by
  simp [splitCols, hc, h]

theorem getLastD_mem_cons : ∀ (gs : List Str) (g : Str), (g :: gs).getLastD [] ∈ g :: gs := by
  intro gs
  induction gs with
  | nil => intro g; simp [List.getLastD_cons]
  | cons y ys ih =>
    intro g
    rw [List.getLastD_cons]
    exact List.mem_cons_of_mem g (ih y)

theorem headD_splitCols (s : Str) :
    (splitCols s).headD [] = s.takeWhile (fun c => ! decide (c = ':')) := by
  induction s with
  | nil => simp [splitCols]
  | cons c rest ih =>
    by_cases hc : c = ':'
    · simp [splitCols, hc, List.takeWhile_cons]
    · simp only [splitCols, hc, if_false]
      cases h : splitCols rest with
      | nil => exact absurd h (splitCols_ne_nil rest)
      | cons g gs =>
        rw [h] at ih
        simp only [List.headD_cons] at ih
        simp [List.takeWhile_cons, hc, ← ih]

theorem lastColonToken_nil : lastColonToken [] = [] := rfl

theorem lastColonToken_of_no_colon (s : Str) (h : ':' ∉ s) : lastColonToken s = s := by
  unfold lastColonToken
  rw [splitCols_of_no_colon s h]
  rfl

theorem lastColonToken_no_colon (s : Str) : ':' ∉ lastColonToken s := by
  unfold lastColonToken
  cases h : splitCols s with
  | nil => exact absurd h (splitCols_ne_nil s)
  | cons g gs =>
    exact splitCols_elem_no_colon s _ (h ▸ getLastD_mem_cons gs g)

theorem getLastD_default_irrel (l : List Str) (hl : l ≠ []) (a b : Str) :
    l.getLastD a = l.getLastD b := by
  cases l with
  | nil => exact absurd rfl hl
  | cons x xs => rw [List.getLastD_cons, List.getLastD_cons]

theorem lastColonToken_append_colon (s t : Str) :
    lastColonToken (s ++ ':' :: t) = lastColonToken t := by
  induction s with
  | nil =>
    show (splitCols (':' :: t)).getLastD [] = lastColonToken t
    have hcol : splitCols (':' :: t) = [] :: splitCols t := by simp [splitCols]
    rw [hcol, List.getLastD_cons]
    rfl
  | cons c s ih =>
    have hmem : ':' ∈ s ++ ':' :: t :=
      List.mem_append_right s (List.mem_cons_self ':' t)
    rcases splitCols_two_of_colon _ hmem with ⟨g, gs, hsp, hgs⟩
    rw [show lastColonToken (s ++ ':' :: t) = (g :: gs).getLastD [] from by
      unfold lastColonToken; rw [hsp]] at ih
    by_cases hc : c = ':'
    · subst hc
      show (splitCols (':' :: (s ++ ':' :: t))).getLastD [] = lastColonToken t
      have hcol : splitCols (':' :: (s ++ ':' :: t)) = [] :: splitCols (s ++ ':' :: t) := by
        simp [splitCols]
      rw [hcol, hsp, List.getLastD_cons]
      exact ih
    · show (splitCols (c :: (s ++ ':' :: t))).getLastD [] = lastColonToken t
      rw [splitCols_cons_of_ne c _ hc g gs hsp, List.getLastD_cons,
        getLastD_default_irrel gs hgs (c :: g) g]
      rw [List.getLastD_cons] at ih
      exact ih

theorem normalize_stop_id_mem_splitCols (s : Str) (h : ':' ∈ s) :
    normalize_stop_id s ∈ splitCols s := by
  unfold normalize_stop_id
  rw [if_pos h]
  cases hs : splitCols s with
  | nil => exact absurd hs (splitCols_ne_nil s)
  | cons g gs => simp

theorem exists_colon_split (s : Str) (h : ':' ∈ s) :
    ∃ t, s = s.takeWhile (fun c => ! decide (c = ':')) ++ ':' :: t := by
  induction s with
  | nil => simp at h
  | cons c rest ih =>
    by_cases hc : c = ':'
    · subst hc
      exact ⟨rest, by simp [List.takeWhile_cons]⟩
    · have hr : ':' ∈ rest := by
        rcases List.mem_cons.mp h with hh | hh
        · exact absurd hh.symm hc
        · exact hh
      rcases ih hr with ⟨t, ht⟩
      refine ⟨t, ?_⟩
      rw [List.takeWhile_cons]
      have hcond : (!decide (c = ':')) = true := by simp [hc]
      rw [if_pos hcond, List.cons_append]
      exact congrArg (c :: ·) ht

/-- C5: normalize_stop_id returns the base code before the colon delimiter when one is
present (the input splits as base ++ colon ++ rest) and the input unchanged otherwise;
its output never contains the delimiter, and it is idempotent. -/
theorem normalize_stop_id_spec (s : Str) :
    (':' ∈ s → ∃ t, s = normalize_stop_id s ++ ':' :: t) ∧
    (':' ∉ s → normalize_stop_id s = s) ∧
    ':' ∉ normalize_stop_id s ∧
    normalize_stop_id (normalize_stop_id s) = normalize_stop_id s := by
  have hnc : ':' ∉ normalize_stop_id s := by
    by_cases h : ':' ∈ s
    · exact splitCols_elem_no_colon s _ (normalize_stop_id_mem_splitCols s h)
    · unfold normalize_stop_id
      rw [if_neg h]
      exact h
  have hid : ∀ u : Str, ':' ∉ u → normalize_stop_id u = u := by
    intro u hu
    unfold normalize_stop_id
    rw [if_neg hu]
  refine ⟨?_, hid s, hnc, hid _ hnc⟩
  intro h
  rcases exists_colon_split s h with ⟨t, ht⟩
  refine ⟨t, ?_⟩
  unfold normalize_stop_id
  rw [if_pos h, headD_splitCols]
  exact ht

/-- Witness for C5 at concrete inputs: a platform-suffixed id splits at its delimiter,
and a plain id is returned unchanged. -/
theorem normalize_stop_id_spec_witness :
    (∃ t, stopColon = normalize_stop_id stopColon ++ ':' :: t) ∧
    normalize_stop_id stopA = stopA :=
  ⟨(normalize_stop_id_spec stopColon).1 (by decide),
   (normalize_stop_id_spec stopA).2.1 (by decide)⟩

/-- C10: the two sources are normalized asymmetrically before the join: the realtime
trip id keeps only its part after the last colon (and is unchanged when it has none)
while the static trip id is used verbatim, stop ids are cut before the first colon on
both sides, and a realtime record joins a static stop-time row exactly when the static
trip_id equals that suffix and the normalized stop ids are equal. -/
theorem join_normalization_spec (s t : Str) (y : StopTimeRow) (rawTrip rawStop : Str)
    (aD dD : Option Int) :
    (':' ∉ t → lastColonToken (s ++ ':' :: t) = t) ∧
    (':' ∉ s → lastColonToken s = s) ∧
    ':' ∉ lastColonToken s ∧
    (joinMatch (recordOfUpdate (lastColonToken rawTrip) ⟨rawStop, aD, dD⟩)
        { y with stop_id := normalize_stop_id y.stop_id } = true ↔
      (y.trip_id = lastColonToken rawTrip ∧
        normalize_stop_id y.stop_id = normalize_stop_id rawStop)) := by
  refine ⟨?_, lastColonToken_of_no_colon s, lastColonToken_no_colon s, ?_⟩
  · intro h
    rw [lastColonToken_append_colon, lastColonToken_of_no_colon t h]
  · simp [joinMatch, recordOfUpdate]

/-- Witness for C10 at concrete inputs: the suffix after the last colon is taken from
the realtime id, and a colon-free id is left unchanged. -/
theorem join_normalization_spec_witness :
    lastColonToken (rtPrefix ++ ':' :: tripT) = tripT ∧
    lastColonToken tripT = tripT :=
  ⟨(join_normalization_spec rtPrefix tripT ⟨[], [], [], []⟩ [] [] none none).1 (by decide),
   (join_normalization_spec tripT tripT ⟨[], [], [], []⟩ [] [] none none).2.1 (by decide)⟩

/-- C8 counterexample: when the configured line name matches no route, the code raises
nothing: get_line_trip_ids returns the empty set as an ordinary value and the
downstream filter step runs and yields an empty schedule, so no
ScheduleResolutionError (which the code does not define) occurs. -/
theorem no_route_counterexample :
    get_line_trip_ids c8routes c8trips lineY = [] ∧
    (filter_stops_and_times c1stops c1st (get_line_trip_ids c8routes c8trips lineY)
        lineStopsABC).2 = [] := by decide

/-- C8 amended: when the line name resolves to zero routes, get_line_trip_ids returns
the empty trip-id set as a normal value (no error is raised; the code defines no
ScheduleResolutionError) and the schedule subsequently built from it is empty. -/
theorem no_route_empty_trips (routes : List RouteRow) (trips : List TripRow) (name : Str)
    (stops : List StopRow) (st : List StopTimeRow) (ls : List Str)
    (h : ∀ r ∈ routes, r.route_short_name ≠ name) :
    get_line_trip_ids routes trips name = [] ∧
    (filter_stops_and_times stops st (get_line_trip_ids routes trips name) ls).2 = [] := by
  have h1 : routes.filter (fun r => decide (r.route_short_name = name)) = [] := by
    rw [List.filter_eq_nil_iff]
    intro r hr
    simp [h r hr]
  have h2 : get_line_trip_ids routes trips name = [] := by
    unfold get_line_trip_ids
    rw [h1]
    simp
  refine ⟨h2, ?_⟩
  rw [h2]
  have h3 : st_filtered stops st [] ls = [] := by
    unfold st_filtered
    rw [List.filter_eq_nil_iff]
    intro r hr
    simp
  unfold filter_stops_and_times
  rw [h3]
  rfl

/-- Witness for C8 at a concrete input: line Y matches no route of the table, the trip
set comes back empty and the built schedule is empty. -/
theorem no_route_empty_trips_witness :
    get_line_trip_ids c8routes c8trips lineY = [] ∧
    (filter_stops_and_times c1stops c1st (get_line_trip_ids c8routes c8trips lineY)
        lineStopsABC).2 = [] :=
  no_route_empty_trips c8routes c8trips lineY c1stops c1st lineStopsABC (by decide)

/-- C9 counterexample: a malformed realtime payload does not surface a typed failure
to the caller: the except-handler of fetch_realtime_data converts the decode error
into an ordinary errorReported return value. -/
theorem decode_error_caught_counterexample :
    fetch_realtime_data (Except.error ⟨badPayloadMsg⟩) c1stops c1st lineStopsABC =
      RunOutcome.errorReported := rfl

/-- C9 amended: on a malformed realtime payload the run produces no report (and applies
nothing of the corrupt message, decode being all-or-nothing), but the exception is
caught inside fetch_realtime_data, reported as a console/webhook message, and the
function returns normally instead of propagating a typed failure to its caller. -/
theorem decode_error_caught (e : DecodeError) (stops : List StopRow) (st : List StopTimeRow)
    (ls : List Str) :
    fetch_realtime_data (Except.error e) stops st ls = RunOutcome.errorReported ∧
    ∀ as, fetch_realtime_data (Except.error e) stops st ls ≠ RunOutcome.alertsSent as := by
  refine ⟨rfl, ?_⟩
  intro as h
  simp [fetch_realtime_data] at h

theorem parse_flatMap_eq (l : List FeedEntity)
    (f : TripUpdate → List RealtimeDelay) :
    l.flatMap (fun e =>
      match e.trip_update with
      | none => []
      | some tu => f tu) = (l.filterMap FeedEntity.trip_update).flatMap f := by
  induction l with
  | nil => rfl
  | cons e es ih =>
    cases h : e.trip_update with
    | none => simp [List.flatMap_cons, List.filterMap_cons, h, ih]
    | some tu => simp [List.flatMap_cons, List.filterMap_cons, h, ih]

/-- C4: the parser emits exactly one RealtimeDelay per stop_time_update of every
trip_update present in the decoded message (so the output length is the sum of the
stop-update counts), and a stop update whose arrival (departure) field is absent gets
arrival (departure) delay 0. -/
theorem parse_trip_updates_spec (feed : FeedMessage) :
    parse_trip_updates feed =
      (feed.entity.filterMap FeedEntity.trip_update).flatMap
        (fun tu => tu.stop_time_update.map (recordOfUpdate (lastColonToken tu.trip.trip_id))) ∧
    (parse_trip_updates feed).length =
      ((feed.entity.filterMap FeedEntity.trip_update).map
        (fun tu => tu.stop_time_update.length)).sum ∧
    (∀ tid stu, stu.arrival = none → (recordOfUpdate tid stu).arrival_delay = 0) ∧
    (∀ tid stu, stu.departure = none → (recordOfUpdate tid stu).departure_delay = 0) := by
  have h1 : parse_trip_updates feed =
      (feed.entity.filterMap FeedEntity.trip_update).flatMap
        (fun tu => tu.stop_time_update.map (recordOfUpdate (lastColonToken tu.trip.trip_id))) :=
    parse_flatMap_eq feed.entity _
  refine ⟨h1, ?_, ?_, ?_⟩
  · rw [h1, List.length_flatMap]
    simp [Function.comp_def]
  · intro tid stu h
    simp [recordOfUpdate, h]
  · intro tid stu h
    simp [recordOfUpdate, h]

/-- Witness for C4 at a concrete input: a stop update with both delay fields absent
yields the zero-delay record. -/
theorem parse_trip_updates_spec_witness :
    (recordOfUpdate tripT ⟨stopA, none, none⟩).arrival_delay = 0 ∧
    (recordOfUpdate tripT ⟨stopA, none, none⟩).departure_delay = 0 :=
  ⟨(parse_trip_updates_spec c1feed).2.2.1 tripT ⟨stopA, none, none⟩ rfl,
   (parse_trip_updates_spec c1feed).2.2.2 tripT ⟨stopA, none, none⟩ rfl⟩

/-- C3: a trip id is selected for delay alerting exactly when some row of the joined
view carries that trip id with an arrival delay of at least 120 seconds; so a trip with
delays 90s and 150s qualifies and a trip with all delays below 120s does not. -/
theorem delay_threshold_spec (rt : List RealtimeDelay) (stops : List StopRow)
    (st : List StopTimeRow) (ls : List Str) (tid : Str) :
    tid ∈ delayed_trip_ids (merged_view rt stops st ls) ↔
      ∃ r ∈ merged_view rt stops st ls, r.trip_id = tid ∧ 120 ≤ r.arrival_delay := by
  unfold delayed_trip_ids
  rw [List.mem_map]
  constructor
  · rintro ⟨r, hr, hid⟩
    rw [List.mem_filter] at hr
    exact ⟨r, hr.1, hid, by simpa using hr.2⟩
  · rintro ⟨r, hr, hid, hd⟩
    exact ⟨r, List.mem_filter.mpr ⟨hr, by simpa using hd⟩, hid⟩

theorem merge_stops_fst (rt : List RealtimeDelay) (stops : List StopRow)
    (p : RealtimeDelay × Option Str) (hp : p ∈ merge_stops rt stops) : p.1 ∈ rt := by
  unfold merge_stops at hp
  rw [List.mem_flatMap] at hp
  rcases hp with ⟨r, hr, hmem⟩
  split at hmem
  · have hpr : p = (r, none) := by simpa using hmem
    rw [hpr]
    exact hr
  · rw [List.mem_map] at hmem
    rcases hmem with ⟨s2, _, hps⟩
    rw [← hps]
    exact hr

theorem merge_stop_times_fields (rows : List (RealtimeDelay × Option Str))
    (st : List StopTimeRow) (m : MergedRow) (hm : m ∈ merge_stop_times rows st) :
    ∃ p ∈ rows, m.trip_id = p.1.trip_id ∧ m.stop_id = p.1.stop_id := by
  unfold merge_stop_times at hm
  rw [List.mem_flatMap] at hm
  rcases hm with ⟨p, hp, hmem⟩
  refine ⟨p, hp, ?_⟩
  split at hmem
  · rw [List.mem_singleton] at hmem
    rw [hmem]
    exact ⟨rfl, rfl⟩
  · rw [List.mem_map] at hmem
    rcases hmem with ⟨x2, _, hmx⟩
    rw [← hmx]
    exact ⟨rfl, rfl⟩

/-- C1 amended: in the join output, wherever the scheduled arrival (departure) time is
present the effective time equals scheduled plus the record delay; but the join is
driven by the realtime records: a (TripId, StopId) stop visit with no RealtimeDelay
record produces no join row at all, rather than a row with delay 0. -/
theorem reconciliation_join_spec (rt : List RealtimeDelay) (stops : List StopRow)
    (st : List StopTimeRow) :
    (∀ row ∈ reconciled rt stops st, ∀ t : Int, row.arrival_time = some t →
        row.real_arrival_time = some (t + row.arrival_delay)) ∧
    (∀ row ∈ reconciled rt stops st, ∀ t : Int, row.departure_time = some t →
        row.real_departure_time = some (t + row.departure_delay)) ∧
    (∀ tid sid : Str, (∀ r ∈ rt, ¬(r.trip_id = tid ∧ r.stop_id = sid)) →
        ∀ row ∈ reconciled rt stops st, ¬(row.trip_id = tid ∧ row.stop_id = sid)) := by
  refine ⟨?_, ?_, ?_⟩
  · intro row hrow t ht
    unfold reconciled at hrow
    rw [List.mem_map] at hrow
    rcases hrow with ⟨mrow, _, hw⟩
    rw [← hw] at ht ⊢
    simp only [withRealTimes] at ht ⊢
    rw [ht]
    rfl
  · intro row hrow t ht
    unfold reconciled at hrow
    rw [List.mem_map] at hrow
    rcases hrow with ⟨mrow, _, hw⟩
    rw [← hw] at ht ⊢
    simp only [withRealTimes] at ht ⊢
    rw [ht]
    rfl
  · intro tid sid hno row hrow hids
    unfold reconciled at hrow
    rw [List.mem_map] at hrow
    rcases hrow with ⟨mrow, hmrow, hw⟩
    rcases merge_stop_times_fields _ _ mrow hmrow with ⟨p, hp, hmt, hms⟩
    have hr : p.1 ∈ rt := merge_stops_fst _ _ p hp
    apply hno p.1 hr
    constructor
    · rw [← hmt, ← show row.trip_id = mrow.trip_id from by rw [← hw]; rfl]
      exact hids.1
    · rw [← hms, ← show row.stop_id = mrow.stop_id from by rw [← hw]; rfl]
      exact hids.2

/-- C1 counterexample: in the round-trip scenario (trip T over stops A, B, C at
08:00/08:05/08:10 with a +300s delay record only at B), the join output carries
effective arrival 08:10 at B but contains no row for stop A at all: the stop visit
without a realtime record is dropped instead of reported on schedule. -/
theorem reconciliation_join_counterexample :
    ((reconciled c1rt c1stops c1st).filter (fun r => decide (r.stop_id = stopB))).map
        ReconRow.real_arrival_time = [some 29400] ∧
    (reconciled c1rt c1stops c1st).filter (fun r => decide (r.stop_id = stopA)) = [] := by
  decide

/-- Witness for C1 amended at the round-trip scenario: the B row gets 08:05 + 300s, and
no row of the join output is the (T, A) visit. -/
theorem reconciliation_join_spec_witness :
    c1rowB.real_arrival_time = some (29100 + 300) ∧
    ¬(c1rowB.trip_id = tripT ∧ c1rowB.stop_id = stopA) :=
  ⟨(reconciliation_join_spec c1rt c1stops c1st).1 c1rowB (by decide) 29100 (by decide),
   (reconciliation_join_spec c1rt c1stops c1st).2.2 tripT stopA (by decide) c1rowB (by decide)⟩

/-- C2 amended: filter_stops_and_times keeps only stop-time rows of member trips whose
canonical stop id belongs to the configured stop set — the visited stop set of every
kept trip is a subset of the configured set — but it enforces no coverage requirement:
a trip visiting only part of the configured stops is kept, not discarded. -/
theorem filtered_rows_subset (stops : List StopRow) (st : List StopTimeRow)
    (ids : List Str) (ls : List Str) :
    ∀ r ∈ (filter_stops_and_times stops st ids ls).2,
      r.trip_id ∈ ids ∧
      r.stop_id ∈ (filter_stops_and_times stops st ids ls).1.map StopRow.stop_id := by
  intro r hr
  have hr1 : r ∈ st_filtered stops st ids ls := by
    have hsub := List.filter_sublist (p := fun x =>
      ! invalid_trip (st_filtered stops st ids ls) x.trip_id) (st_filtered stops st ids ls)
    exact hsub.mem hr
  unfold st_filtered at hr1
  rw [List.mem_filter] at hr1
  have h2 := hr1.2
  rw [Bool.and_eq_true, decide_eq_true_iff, decide_eq_true_iff] at h2
  exact h2

/-- C2 counterexample: with configured stops a, b, c, a trip whose rows visit only A
and B passes filter_stops_and_times (its rows are kept) although its visited set does
not include the configured stop C. -/
theorem coverage_filter_counterexample :
    tripT1 ∈ ((filter_stops_and_times c1stops c2st [tripT1] lineStopsABC).2.map
        StopTimeRow.trip_id) ∧
    stopC ∈ ((filter_stops_and_times c1stops c2st [tripT1] lineStopsABC).1.map
        StopRow.stop_id) ∧
    stopC ∉ ((filter_stops_and_times c1stops c2st [tripT1] lineStopsABC).2.filter
        (fun r => decide (r.trip_id = tripT1))).map StopTimeRow.stop_id := by
  decide

/-- Witness for C2 amended at the partial-coverage example: the kept A-row of trip T1
is of a member trip and of a configured stop. -/
theorem filtered_rows_subset_witness :
    c2row0.trip_id ∈ [tripT1] ∧
    c2row0.stop_id ∈ (filter_stops_and_times c1stops c2st [tripT1] lineStopsABC).1.map
      StopRow.stop_id :=
  filtered_rows_subset c1stops c2st [tripT1] lineStopsABC c2row0 (by decide)

/-- C6 amended: the degenerate-trip filter works in table row order: every trip kept by
filter_stops_and_times has its first and last kept row (in the order of the stop_times
table, the order pandas groupby aggregates in) at distinct stop ids. -/
theorem degenerate_filter_row_order (stops : List StopRow) (st : List StopTimeRow)
    (ids ls : List Str) (tid : Str) (x : StopTimeRow) (xs : List StopTimeRow)
    (h : tripRowsOf (filter_stops_and_times stops st ids ls).2 tid = x :: xs) :
    x.stop_id ≠ (xs.getLastD x).stop_id := by
  have hff : tripRowsOf (filter_stops_and_times stops st ids ls).2 tid =
      (st_filtered stops st ids ls).filter (fun r =>
        decide (r.trip_id = tid) &&
          ! invalid_trip (st_filtered stops st ids ls) r.trip_id) := by
    unfold tripRowsOf filter_stops_and_times
    rw [List.filter_filter]
  by_cases hinv : invalid_trip (st_filtered stops st ids ls) tid = true
  · have hnil : tripRowsOf (filter_stops_and_times stops st ids ls).2 tid = [] := by
      rw [hff, List.filter_eq_nil_iff]
      intro r hr
      rw [Bool.and_eq_true, decide_eq_true_iff]
      rintro ⟨hrt, hni⟩
      rw [hrt, hinv] at hni
      simp at hni
    rw [h] at hnil
    exact absurd hnil (List.cons_ne_nil x xs)
  · have heq : tripRowsOf (filter_stops_and_times stops st ids ls).2 tid =
        tripRowsOf (st_filtered stops st ids ls) tid := by
      rw [hff]
      unfold tripRowsOf
      apply List.filter_congr
      intro r hr
      by_cases hrt : r.trip_id = tid
      · simp [hrt, hinv]
      · simp [hrt]
    rw [heq] at h
    have hfalse : invalid_trip (st_filtered stops st ids ls) tid = false := by
      cases hb : invalid_trip (st_filtered stops st ids ls) tid
      · rfl
      · exact absurd hb hinv
    unfold invalid_trip at hfalse
    rw [h] at hfalse
    simpa using hfalse

/-- C6 counterexample: with rows of trip T in table order S at 08:00, S at 08:10, B at
08:05, the trip is kept (first and last row differ), yet in schedule order (sorted by
scheduled arrival) both its first and last visited stop are S — the claim's
schedule-order reading is violated by the kept trip. -/
theorem degenerate_schedule_order_counterexample :
    tripRowsOf (filter_stops_and_times c6stops c6st [tripT] c6ls).2 tripT ≠ [] ∧
    ((schedSort (tripRowsOf (filter_stops_and_times c6stops c6st [tripT] c6ls).2
        tripT)).head?).map StopTimeRow.stop_id = some stopS ∧
    ((schedSort (tripRowsOf (filter_stops_and_times c6stops c6st [tripT] c6ls).2
        tripT)).getLast?).map StopTimeRow.stop_id = some stopS := by
  decide

/-- Witness for C6 amended: in the same example the kept rows of trip T in table order
run from stop S to stop B, which differ. -/
theorem degenerate_filter_row_order_witness :
    c6row0.stop_id ≠ (([c6row1, c6row2]).getLastD c6row0).stop_id :=
  degenerate_filter_row_order c6stops c6st [tripT] c6ls tripT c6row0 [c6row1, c6row2]
    (by decide)

theorem strLt_irrefl (s : Str) : strLt s s = false := by
  induction s with
  | nil => rfl
  | cons c cs ih => simp [strLt, ih]

theorem strLt_connex (a b : Str) : strLt a b = true ∨ a = b ∨ strLt b a = true := by
  induction a generalizing b with
  | nil =>
    cases b with
    | nil => exact Or.inr (Or.inl rfl)
    | cons y ys => exact Or.inl (by simp [strLt])
  | cons x xs ih =>
    cases b with
    | nil => exact Or.inr (Or.inr (by simp [strLt]))
    | cons y ys =>
      by_cases hxy : x = y
      · subst hxy
        rcases ih ys with h | h | h
        · exact Or.inl (by simp [strLt, h])
        · exact Or.inr (Or.inl (by rw [h]))
        · exact Or.inr (Or.inr (by simp [strLt, h]))
      · rcases lt_or_gt_of_ne (show x ≠ y from hxy) with h | h
        · exact Or.inl (by simp [strLt, hxy, h])
        · have hyx : ¬ y = x := fun hh => hxy hh.symm
          exact Or.inr (Or.inr (by simp [strLt, hyx, h]))

theorem strLt_trans (a b c : Str) (h1 : strLt a b = true) (h2 : strLt b c = true) :
    strLt a c = true := by
  induction a generalizing b c with
  | nil =>
    cases b with
    | nil => simp [strLt] at h1
    | cons y ys =>
      cases c with
      | nil => simp [strLt] at h2
      | cons z zs => simp [strLt]
  | cons x xs ih =>
    cases b with
    | nil => simp [strLt] at h1
    | cons y ys =>
      cases c with
      | nil => simp [strLt] at h2
      | cons z zs =>
        simp only [strLt] at h1 h2 ⊢
        by_cases hxy : x = y
        · subst hxy
          rw [if_pos rfl] at h1
          by_cases hyz : x = z
          · subst hyz
            rw [if_pos rfl] at h2 ⊢
            exact ih ys zs h1 h2
          · rw [if_neg hyz] at h2 ⊢
            exact h2
        · rw [if_neg hxy] at h1
          rw [decide_eq_true_iff] at h1
          by_cases hyz : y = z
          · subst hyz
            rw [if_neg hxy]
            rw [decide_eq_true_iff]
            exact h1
          · rw [if_neg hyz] at h2
            rw [decide_eq_true_iff] at h2
            have hlt : x < z := lt_trans h1 h2
            rw [if_neg (ne_of_lt hlt)]
            rw [decide_eq_true_iff]
            exact hlt

theorem optIntLe_total (a b : Option Int) : optIntLe a b = true ∨ optIntLe b a = true := by
  cases a with
  | none =>
    cases b with
    | none => exact Or.inl rfl
    | some y => exact Or.inr rfl
  | some x =>
    cases b with
    | none => exact Or.inl rfl
    | some y =>
      rcases Int.le_total x y with h | h
      · exact Or.inl (by simp [optIntLe, h])
      · exact Or.inr (by simp [optIntLe, h])

theorem optIntLe_trans (a b c : Option Int) (h1 : optIntLe a b = true)
    (h2 : optIntLe b c = true) : optIntLe a c = true := by
  cases c with
  | none =>
    cases a with
    | none => rfl
    | some x => rfl
  | some z =>
    cases b with
    | none => simp [optIntLe] at h2
    | some y =>
      cases a with
      | none => simp [optIntLe] at h1
      | some x =>
        simp only [optIntLe, decide_eq_true_iff] at h1 h2 ⊢
        exact le_trans h1 h2

theorem rowLe_total (a b : ReconRow) : RowLeP a b ∨ RowLeP b a := by
  unfold RowLeP rowLe
  rcases strLt_connex a.trip_id b.trip_id with h | h | h
  · exact Or.inl (by simp [h])
  · rcases optIntLe_total a.real_arrival_time b.real_arrival_time with h2 | h2
    · exact Or.inl (by simp [h, h2])
    · exact Or.inr (by simp [h, h2])
  · exact Or.inr (by simp [h])

theorem rowLe_trans (a b c : ReconRow) (h1 : RowLeP a b) (h2 : RowLeP b c) : RowLeP a c := by
  unfold RowLeP rowLe at h1 h2 ⊢
  rw [Bool.or_eq_true, Bool.and_eq_true, decide_eq_true_iff] at h1 h2 ⊢
  rcases h1 with h1 | ⟨he1, ho1⟩
  · rcases h2 with h2 | ⟨he2, ho2⟩
    · exact Or.inl (strLt_trans _ _ _ h1 h2)
    · exact Or.inl (he2 ▸ h1)
  · rcases h2 with h2 | ⟨he2, ho2⟩
    · exact Or.inl (he1 ▸ h2)
    · exact Or.inr ⟨he1.trans he2, optIntLe_trans _ _ _ ho1 ho2⟩

theorem dedupRowsAux_sublist (l : List ReconRow) :
    ∀ seen, List.Sublist (dedupRowsAux seen l) l := by
  induction l with
  | nil =>
    intro seen
    simp [dedupRowsAux]
  | cons x xs ih =>
    intro seen
    unfold dedupRowsAux
    by_cases h : rowKey x ∈ seen
    · rw [if_pos h]
      exact List.Sublist.cons x (ih seen)
    · rw [if_neg h]
      exact List.Sublist.cons₂ x (ih _)

theorem dedupRowsAux_not_seen (l : List ReconRow) :
    ∀ seen k, k ∈ (dedupRowsAux seen l).map rowKey → k ∉ seen := by
  induction l with
  | nil =>
    intro seen k hk
    simp [dedupRowsAux] at hk
  | cons x xs ih =>
    intro seen k hk
    unfold dedupRowsAux at hk
    by_cases h : rowKey x ∈ seen
    · rw [if_pos h] at hk
      exact ih seen k hk
    · rw [if_neg h] at hk
      simp only [List.map_cons, List.mem_cons] at hk
      rcases hk with hk | hk
      · rw [hk]
        exact h
      · intro hks
        exact ih _ k hk (List.mem_cons_of_mem _ hks)

theorem dedupRowsAux_key_nodup (l : List ReconRow) :
    ∀ seen, ((dedupRowsAux seen l).map rowKey).Nodup := by
  induction l with
  | nil =>
    intro seen
    simp [dedupRowsAux]
  | cons x xs ih =>
    intro seen
    unfold dedupRowsAux
    by_cases h : rowKey x ∈ seen
    · rw [if_pos h]
      exact ih seen
    · rw [if_neg h]
      simp only [List.map_cons, List.nodup_cons]
      refine ⟨?_, ih _⟩
      intro hmem
      exact dedupRowsAux_not_seen xs _ _ hmem (List.mem_cons_self _ _)

theorem nodup_stop_of_key (g : List ReconRow) (t : Str)
    (hk : (g.map rowKey).Nodup) (ht : ∀ r ∈ g, r.trip_id = t) :
    (g.map ReconRow.stop_id).Nodup := by
  induction g with
  | nil => simp
  | cons x xs ih =>
    simp only [List.map_cons, List.nodup_cons] at hk ⊢
    refine ⟨?_, ih hk.2 (fun r hr => ht r (List.mem_cons_of_mem x hr))⟩
    intro hmem
    rw [List.mem_map] at hmem
    rcases hmem with ⟨r, hr, hrs⟩
    apply hk.1
    rw [List.mem_map]
    refine ⟨r, hr, ?_⟩
    unfold rowKey
    rw [ht r (List.mem_cons_of_mem x hr), ht x (List.mem_cons_self x xs), hrs]

theorem alert_rows_sorted (m : List ReconRow) : (alert_rows m).Pairwise RowLeP := by
  have hs : (sortRows (delayed_view m)).Pairwise RowLeP :=
    @List.sorted_insertionSort ReconRow RowLeP _ ⟨rowLe_total⟩ ⟨rowLe_trans⟩ (delayed_view m)
  exact hs.sublist (dedupRowsAux_sublist _ [])

theorem tripGroup_sorted_arrival (l : List ReconRow) (t : Str) (hs : l.Pairwise RowLeP) :
    (tripGroup l t).Pairwise
      (fun r s => optIntLe r.real_arrival_time s.real_arrival_time = true) := by
  have hsub : List.Sublist (tripGroup l t) l := List.filter_sublist l
  have hg : (tripGroup l t).Pairwise RowLeP := hs.sublist hsub
  have htrip : ∀ r ∈ tripGroup l t, r.trip_id = t := by
    intro r hr
    simpa [decide_eq_true_iff] using (List.mem_filter.mp hr).2
  refine List.Pairwise.imp_of_mem ?_ hg
  intro r s hr hs2 hrel
  unfold RowLeP rowLe at hrel
  rw [htrip r hr, htrip s hs2, strLt_irrefl] at hrel
  simpa using hrel

theorem alert_group_props (m : List ReconRow) (t : Str) :
    ((tripGroup (alert_rows m) t).map ReconRow.stop_id).Nodup ∧
    (tripGroup (alert_rows m) t).Pairwise
      (fun r s => optIntLe r.real_arrival_time s.real_arrival_time = true) := by
  constructor
  · have hk : ((alert_rows m).map rowKey).Nodup := dedupRowsAux_key_nodup _ []
    have hsub : List.Sublist (tripGroup (alert_rows m) t) (alert_rows m) :=
      List.filter_sublist _
    have hk2 : ((tripGroup (alert_rows m) t).map rowKey).Nodup :=
      hk.sublist (hsub.map rowKey)
    apply nodup_stop_of_key _ t hk2
    intro r hr
    simpa [decide_eq_true_iff] using (List.mem_filter.mp hr).2
  · exact tripGroup_sorted_arrival _ t (alert_rows_sorted m)

/-- C7: every alert grouping of a qualifying trip is the trip's joined rows sorted by
effective arrival time ascending (NaT last) and deduplicated to the first occurrence
per (TripId, StopId): each stop id appears at most once in the group, the group is
pairwise ordered by effective arrival, and the grouping reports the first row's stop
name as start, the last row's stop name as end, and for each stop the effective
arrival time and the whole-minute delay floor(delaySeconds / 60). -/
theorem alert_grouping_spec (feed : FeedMessage) (stops : List StopRow)
    (st : List StopTimeRow) (ls : List Str) (as : List TripAlert) (a : TripAlert)
    (hout : fetch_realtime_data (Except.ok feed) stops st ls = RunOutcome.alertsSent as)
    (ha : a ∈ as) :
    a = mkAlert a.trip_id (alert_group_of feed stops st ls a.trip_id) ∧
    ((alert_group_of feed stops st ls a.trip_id).map ReconRow.stop_id).Nodup ∧
    (alert_group_of feed stops st ls a.trip_id).Pairwise
      (fun r s => optIntLe r.real_arrival_time s.real_arrival_time = true) ∧
    a.start_name = (alert_group_of feed stops st ls a.trip_id).head?.bind ReconRow.stop_name ∧
    a.end_name = (alert_group_of feed stops st ls a.trip_id).getLast?.bind ReconRow.stop_name ∧
    a.stops = (alert_group_of feed stops st ls a.trip_id).map (fun r =>
      { stop_name := r.stop_name, real_arrival_time := r.real_arrival_time,
        delay_min := Int.fdiv r.arrival_delay 60 }) := by
  simp only [fetch_realtime_data, fetch_realtime_body] at hout
  split_ifs at hout with h1 h2
  all_goals simp only [RunOutcome.alertsSent.injEq, reduceCtorEq] at hout
  subst hout
  unfold build_alerts at ha
  rw [List.mem_map] at ha
  rcases ha with ⟨t, ht, hat⟩
  subst hat
  have hgrp := alert_group_props (merged_view (parse_trip_updates feed) stops st ls) t
  exact ⟨rfl, hgrp.1, hgrp.2, rfl, rfl, rfl⟩

/-- Witness for C7 at the alerting example: trip T (delays 60s at A and 300s at B)
qualifies and its alert grouping satisfies every reported property. -/
theorem alert_grouping_spec_witness :
    c7alert = mkAlert c7alert.trip_id (alert_group_of c7feed c7stops c7st c7ls
      c7alert.trip_id) ∧
    ((alert_group_of c7feed c7stops c7st c7ls c7alert.trip_id).map ReconRow.stop_id).Nodup ∧
    (alert_group_of c7feed c7stops c7st c7ls c7alert.trip_id).Pairwise
      (fun r s => optIntLe r.real_arrival_time s.real_arrival_time = true) ∧
    c7alert.start_name = (alert_group_of c7feed c7stops c7st c7ls
      c7alert.trip_id).head?.bind ReconRow.stop_name ∧
    c7alert.end_name = (alert_group_of c7feed c7stops c7st c7ls
      c7alert.trip_id).getLast?.bind ReconRow.stop_name ∧
    c7alert.stops = (alert_group_of c7feed c7stops c7st c7ls c7alert.trip_id).map (fun r =>
      { stop_name := r.stop_name, real_arrival_time := r.real_arrival_time,
        delay_min := Int.fdiv r.arrival_delay 60 }) :=
  alert_grouping_spec c7feed c7stops c7st c7ls c7as c7alert (by decide) (by decide)
